import Mathlib

/-!
# srpmutil: package metadata of an RPM spec file as JSON

A shallow embedding of `src/srpmutil/srpmutil.c`.  The program is a single `main`
that calls into librpm, walks the linked list `spec->packages` and writes a JSON
document with `printf`.

* The rpm library is not part of the repository.  What `main` observes of it is
  taken as data: a `Rpm` value carries the behaviour of `parseSpec`, and a parsed
  `Header` carries what `headerNEVRA` and `headerSprintf` give back.
* `main` is embedded as a function from the library behaviour and the argument
  vector to a `Run`: the ordered trace of library and `printf` calls made, and the
  way the process stops (`exit(n)`, or a read outside the argument and
  environment vectors).  The program checks no argument: a missing one is read
  from its slot all the same, as the null pointer or as what lies behind it.
* `printf` is embedded by an interpreter of the two conversions the program uses,
  `%s` and `%d`; the format strings are those of the source.
-/

namespace Srpmutil

/-! ## Data model (the parts of `rpmbuild.h` that `main` touches) -/

/-- Text buffer of librpm (`StringBuf`): the accumulated lines of a section. -/
abbrev StringBuf := String

/-- Metadata header of a package, as far as `main` queries it:
the strings `headerNEVRA` stores through its out-parameters, and the text
`headerSprintf` builds for a format such as `%{ARCH}`.  The headers of a parsed
spec carry name, version, release and architecture, so the four strings the
program prints are present; `epoch` is fetched and never used. -/
structure Header where
  name : String
  epoch : Option String
  version : String
  release : String
  arch : String
  sprintf : String → String

/-- One node of the list `spec->packages` (`Package`), without its `next` link:
`fileList` is `none` for the C pointer `NULL`, that is for a stanza without a
`%files` section, and `some buf` for a section whose text is `buf`. -/
structure Package where
  header : Header
  fileList : Option StringBuf

/-- Parsed spec (`Spec`): the `next`-linked list of packages is a Lean list. -/
structure Spec where
  packages : List Package

/-- Behaviour of the external library that `main` depends on.
`parseSpec target specfile` is the effect of `parseSpec(ts, specfile, ...)` when
the configuration was read with target architecture `target`: the return code and
the spec left in the transaction set, which `rpmtsSetSpec(ts, NULL)` hands out. -/
structure Rpm where
  parseSpec : Option String → Option String → Int × Option Spec

/-! ## Trace of a run -/

/-- Variadic argument of `printf`. -/
inductive Arg where
  | str (s : String)
  | int (d : Int)
  /-- a null `char *` -/
  | null
  deriving DecidableEq

/-- Calls `main` makes that are visible from outside. -/
inductive Call where
  | rpmtsCreate
  | rpmReadConfigFiles (file : Option String) (target : Option String)
  | parseSpec (specfile : Option String)
  | rpmtsSetSpec
  | printf (fmt : String) (args : List Arg)
  deriving DecidableEq

/-- Reads `main` can make that leave the memory described here. -/
inductive Fault where
  /-- read of a slot `argv[i]` that lies past the argument vector and past the
  environment vector behind it -/
  | argvOutOfBounds (i : Nat)
  deriving DecidableEq

/-- How the process stops. -/
inductive Stop where
  | exit (status : Int)
  | fault (f : Fault)
  deriving DecidableEq

/-- Result of running `main`. -/
structure Run where
  trace : List Call
  stop : Stop
  deriving DecidableEq

/-! ## `printf` -/

/-- Expansion of a format: `%s` takes the next argument, a string, `%d` takes
the next argument, an `int`, written in decimal; every other character is copied.
For a null pointer `%s` writes `(null)`, as the C library of the platform does.
(The calls of the program always pass the arguments their format asks for;
a conversion without a matching argument is copied like plain text.) -/
def format : List Char → List Arg → List Char
  | [], _ => []
  | [c], _ => [c]
  | c :: d :: cs, args =>
    if c = '%' ∧ d = 's' then
      match args with
      | Arg.str s :: args' => s.data ++ format cs args'
      | Arg.null :: args' => "(null)".data ++ format cs args'
      | _ => c :: format (d :: cs) args
    else if c = '%' ∧ d = 'd' then
      match args with
      | Arg.int n :: args' => (toString n).data ++ format cs args'
      | _ => c :: format (d :: cs) args
    else c :: format (d :: cs) args

/-- Text a `printf` call writes. -/
def render (fmt : String) (args : List Arg) : String :=
  String.mk (format fmt.data args)

/-- Text written to standard output by a trace: the `printf` calls in order. -/
def stdout : List Call → String
  | [] => ""
  | Call.printf fmt args :: t => render fmt args ++ stdout t
  | _ :: t => stdout t

/-! ## The program -/

/-- Read of `argv[i]`, `argc = argv.length`: slots below `argc` hold the
arguments and slot `argc` holds the terminating null pointer.  On the process
stack the environment pointers `envp` and their terminating null pointer lie
right behind, so that is what the slots `argc + 1`, `argc + 2`, ... hold; a
slot further on belongs to neither vector. -/
def argvAt (argv envp : List String) (i : Nat) : Except Fault (Option String) :=
  if i ≤ argv.length then Except.ok argv[i]?
  else if i ≤ argv.length + 1 + envp.length then Except.ok envp[i - (argv.length + 1)]?
  else Except.error (Fault.argvOutOfBounds i)

/-- A `char *` as argument of `printf`. -/
def ptrArg : Option String → Arg
  | some s => Arg.str s
  | none => Arg.null

/-- Format of the opening `printf` (line 37); in the string literals of this
file `\x7b` and `\x7d` are the braces. -/
def headFmt : String := "\x7b \"srcrpm\":\"%s\",\n  \"packages\":[\n"

/-- Format of the `printf` of one package (line 52). -/
def entryFmt : String :=
  "    \x7b\"name\":\"%s\", \"version\":\"%s\", \"release\":\"%s\", \"noarch\":\"%d\", \"arch\":\"%s\"\x7d"

/-- The `for` loop of lines 38-54 over `pkg`, `pkg->next`, ..., started with the
current values of the locals `noarch` and `fst`; gives the `printf` calls made. -/
def walk : List Package → Int → Int → List Call
  | [], _, _ => []
  | pkg :: next, noarch, fst =>
    -- lines 39-40: if (pkg->fileList == NULL) continue
    match pkg.fileList with
    | none => walk next noarch fst
    | some _ =>
      -- lines 43-45: binRpm = headerSprintf(pkg->header, "%{ARCH}", ...)
      let binRpm := pkg.header.sprintf "%\x7bARCH\x7d"
      -- lines 46-47: if (strcmp(binRpm, "noarch") == 0) noarch = 1
      let noarch := if binRpm = "noarch" then 1 else noarch
      -- lines 48-51: if (fst == 1) printf(","); else fst = 1
      let sep := if fst = 1 then [Call.printf "," []] else []
      let fst := if fst = 1 then fst else 1
      -- line 52: the entry, with the values headerNEVRA stored (line 42)
      sep ++
        Call.printf entryFmt
          [Arg.str pkg.header.name, Arg.str pkg.header.version, Arg.str pkg.header.release,
           Arg.int noarch, Arg.str pkg.header.arch] ::
        walk next noarch fst

/-- The function `main` of `srpmutil.c`; `argc` is the length of `argv`, and
`envp` is the environment of the process, which `main` reaches only through a
slot of `argv` past its terminating null.
The reads of `argv` happen where the source has them: `argv[1]` at line 9,
`argv[3]` under the guard of line 22, `argv[2]` as argument of the `printf` of
line 37.  No read is checked, and nothing between line 37 and `exit(0)` stops
the run. -/
def main (rpm : Rpm) (argv envp : List String) : Run :=
  let argc := argv.length
  -- lines 8-9: rpmtsCreate(), specfile = argv[1]
  match argvAt argv envp 1 with
  | Except.error f => ⟨[Call.rpmtsCreate], Stop.fault f⟩
  | Except.ok specfile =>
    -- lines 10, 22-24: targetarch = NULL; if (argc > 2) targetarch = argv[3]
    match (if argc > 2 then argvAt argv envp 3 else Except.ok none) with
    | Except.error f => ⟨[Call.rpmtsCreate], Stop.fault f⟩
    | Except.ok targetarch =>
      -- lines 25-28: rpmReadConfigFiles(NULL, targetarch), then parseSpec(ts, specfile, ...)
      let t := [Call.rpmtsCreate, Call.rpmReadConfigFiles none targetarch,
                Call.parseSpec specfile]
      match rpm.parseSpec targetarch specfile with
      | (rc, bound) =>
        -- lines 28-31: a non-zero return prints the failure line and exits with 1
        if rc ≠ 0 then ⟨t ++ [Call.printf "fail\n" []], Stop.exit 1⟩
        else
          -- lines 33-35: rpmtsSetSpec(ts, NULL) == NULL exits with 1
          match bound with
          | none => ⟨t ++ [Call.rpmtsSetSpec], Stop.exit 1⟩
          | some spec =>
            -- line 37: the opening printf takes argv[2] for its %s, null or not
            match argvAt argv envp 2 with
            | Except.error f => ⟨t ++ [Call.rpmtsSetSpec], Stop.fault f⟩
            | Except.ok srcrpm =>
              -- lines 38-58: the loop with noarch = 0 and fst = 0, the two closing
              -- printf calls, exit(0)
              ⟨t ++ [Call.rpmtsSetSpec, Call.printf headFmt [ptrArg srcrpm]] ++
                 walk spec.packages 0 0 ++
                 [Call.printf "]\n" [], Call.printf "\x7d\n" []],
               Stop.exit 0⟩

/-! ## Reading a trace -/

/-- The separator call of line 49. -/
def comma : Call := Call.printf "," []

/-- One emitted package: the arguments of an entry `printf`, in the order of
the fields `name`, `version`, `release`, `noarch`, `arch`. -/
structure Entry where
  name : String
  version : String
  release : String
  noarch : Int
  arch : String
  deriving DecidableEq

/-- Reads a call as an entry `printf`, when it is one. -/
def Call.entry? : Call → Option Entry
  | Call.printf fmt [Arg.str n, Arg.str v, Arg.str r, Arg.int d, Arg.str a] =>
    if fmt = entryFmt then some ⟨n, v, r, d, a⟩ else none
  | _ => none

/-- The entries of the `"packages"` array a trace writes, in order. -/
def entries (t : List Call) : List Entry :=
  t.filterMap Call.entry?

/-- Text of the `"noarch"` field of an entry, as `%d` prints it. -/
def Entry.noarchField (e : Entry) : String :=
  toString e.noarch

/-! ## Vocabulary of the specification -/

/-- Resolved architecture of a package: the `%{ARCH}` header format. -/
def resolvedArch (p : Package) : String :=
  p.header.sprintf "%\x7bARCH\x7d"

/-- The records the walk does not skip: those whose file list is present. -/
def qualifying (pkgs : List Package) : List Package :=
  pkgs.filter (fun p => p.fileList.isSome)

/-- A record as the specification describes a binary package: its file list is
"neither empty nor absent". -/
def hasFiles (p : Package) : Bool :=
  p.fileList.isSome && p.fileList != some ""

/-- The four fields an entry copies from its record. -/
def Package.fields (p : Package) : String × String × String × String :=
  (p.header.name, p.header.version, p.header.release, p.header.arch)

/-- The four copied fields of an entry. -/
def Entry.fields (e : Entry) : String × String × String × String :=
  (e.name, e.version, e.release, e.arch)

/-- Text of one entry as the specification writes it; nothing is escaped. -/
def entryText (n v r d a : String) : String :=
  "    \x7b\"name\":\"" ++ n ++ "\", \"version\":\"" ++ v ++ "\", \"release\":\"" ++ r ++
    "\", \"noarch\":\"" ++ d ++ "\", \"arch\":\"" ++ a ++ "\"\x7d"

/-- Entry texts of a list of qualifying packages, the noarch latch threaded
through as a boolean: `seen` tells whether an earlier package resolved to
`noarch`. -/
def entryTexts : Bool → List Package → List String
  | _, [] => []
  | seen, p :: ps =>
    let seen' := seen || decide (resolvedArch p = "noarch")
    entryText p.header.name p.header.version p.header.release
        (if seen' then "1" else "0") p.header.arch ::
      entryTexts seen' ps

/-- The document of the specification for output target `s` and package list
`pkgs`: opening text, the entries separated by single commas, closing text. -/
def document (s : String) (pkgs : List Package) : String :=
  "\x7b \"srcrpm\":\"" ++ s ++ "\",\n  \"packages\":[\n" ++
    String.join (List.intersperse "," (entryTexts false (qualifying pkgs))) ++ "]\n\x7d\n"

/-- The entry calls of the walk, separators left out. -/
def entryCalls : List Package → Int → List Call
  | [], _ => []
  | pkg :: next, noarch =>
    match pkg.fileList with
    | none => entryCalls next noarch
    | some _ =>
      let noarch := if resolvedArch pkg = "noarch" then 1 else noarch
      Call.printf entryFmt
          [Arg.str pkg.header.name, Arg.str pkg.header.version, Arg.str pkg.header.release,
           Arg.int noarch, Arg.str pkg.header.arch] ::
        entryCalls next noarch

/-- Whether one of the first `k + 1` packages of `q` resolves to `noarch`. -/
def latched (q : List Package) (k : Nat) : Bool :=
  (q.take (k + 1)).any (fun p => decide (resolvedArch p = "noarch"))

/-- Library behaviour of `rpm` with every skipped record (file list absent)
taken out of the package list of each parsed spec. -/
def Rpm.withoutSkipped (rpm : Rpm) : Rpm :=
  ⟨fun target specfile =>
    ((rpm.parseSpec target specfile).1,
     (rpm.parseSpec target specfile).2.map (fun spec => ⟨qualifying spec.packages⟩))⟩

/-- Collapses every run of blanks and line breaks to one blank and drops such a
run at the end of the text. -/
def squeeze : List Char → List Char
  | [] => []
  | c :: cs =>
    if c = ' ' ∨ c = '\n' then
      match squeeze cs with
      | [] => []
      | d :: ds => if d = ' ' then d :: ds else ' ' :: d :: ds
    else c :: squeeze cs

/-! ## Sample inputs -/

/-- Header whose raw and resolved architecture agree. -/
def mkHeader (name version release arch : String) : Header :=
  ⟨name, none, version, release, arch, fun _ => arch⟩

/-- Library behaviour: every spec file parses to the given package list. -/
def rpmOf (pkgs : List Package) : Rpm :=
  ⟨fun _ _ => (0, some ⟨pkgs⟩)⟩

/-- The single package of the `demo` spec. -/
def demoPkg : Package := ⟨mkHeader "demo" "1.0" "1" "x86_64", some "/usr/bin/demo\n"⟩

/-- A subpackage with files, built for `x86_64`. -/
def libsPkg : Package := ⟨mkHeader "demo-libs" "1.0" "1" "x86_64", some "/usr/lib64/libdemo.so\n"⟩

/-- A subpackage with files, architecture independent. -/
def docPkg : Package := ⟨mkHeader "demo-doc" "1.0" "1" "noarch", some "/usr/share/doc/demo\n"⟩

/-- A subpackage with a `%files` section that lists nothing. -/
def emptyFilesPkg : Package := ⟨mkHeader "demo-meta" "1.0" "1" "x86_64", some ""⟩

/-- A stanza without `%files` section, architecture independent. -/
def noFilesPkg : Package := ⟨mkHeader "demo-src" "1.0" "1" "noarch", none⟩

/-- A package whose name holds a quote and a backslash. -/
def quotePkg : Package := ⟨mkHeader "de\"mo\\" "1.0" "1" "x86_64", some "/usr/bin/demo\n"⟩

/-- Library behaviour: the parser rejects every spec file. -/
def rpmParseFail : Rpm :=
  ⟨fun _ _ => (1, none)⟩

/-- Library behaviour: every spec file parses, and no spec is bound to the
transaction set afterwards. -/
def rpmBindFail : Rpm :=
  ⟨fun _ _ => (0, none)⟩

/-- An environment of the process. -/
def demoEnv : List String := ["PATH=/usr/bin", "HOME=/root"]

/-- Argument vector of the `demo` run. -/
def demoArgv : List String := ["srpmutil", "demo.spec", "demo-1.0-1.src.rpm"]

/-- Output of the `demo` run as the specification prints it, on one line. -/
def demoLine : String :=
  "\x7b \"srcrpm\":\"demo-1.0-1.src.rpm\", \"packages\":[ \x7b\"name\":\"demo\", \"version\":\"1.0\", \"release\":\"1\", \"noarch\":\"0\", \"arch\":\"x86_64\"\x7d] \x7d"

/-- Output of the `demo` run as the program writes it. -/
def demoText : String :=
  "\x7b \"srcrpm\":\"demo-1.0-1.src.rpm\",\n  \"packages\":[\n    \x7b\"name\":\"demo\", \"version\":\"1.0\", \"release\":\"1\", \"noarch\":\"0\", \"arch\":\"x86_64\"\x7d]\n\x7d\n"

/-! ## Lemmas on `printf` and the output text -/

theorem render_headFmt (s : String) :
    render headFmt [Arg.str s] = "\x7b \"srcrpm\":\"" ++ s ++ "\",\n  \"packages\":[\n" := by
  apply String.ext
  simp [render, headFmt, format]

theorem toString_zero : toString (0 : Int) = "0" := by decide

theorem toString_one : toString (1 : Int) = "1" := by decide

theorem render_entryFmt (n v r a : String) (d : Int) :
    render entryFmt [Arg.str n, Arg.str v, Arg.str r, Arg.int d, Arg.str a] =
      entryText n v r (toString d) a := by
  apply String.ext
  simp [render, entryFmt, format, entryText]

theorem stdout_append (t u : List Call) : stdout (t ++ u) = stdout t ++ stdout u := by
  induction t with
  | nil => apply String.ext; simp [stdout]
  | cons c t ih =>
    cases c <;> simp [stdout, ih, String.append_assoc]

theorem join_cons (x : String) (xs : List String) :
    String.join (x :: xs) = x ++ String.join xs := by
  apply String.ext
  simp [String.join_eq]

/-! ## Lemmas on the walk -/

theorem qualifying_cons_none (p : Package) (ps : List Package) (h : p.fileList = none) :
    qualifying (p :: ps) = qualifying ps := by
  simp [qualifying, h]

theorem qualifying_cons_some (p : Package) (ps : List Package) (b : StringBuf)
    (h : p.fileList = some b) : qualifying (p :: ps) = p :: qualifying ps := by
  simp [qualifying, h]

theorem walk_cons_none (p : Package) (ps : List Package) (noarch fst : Int)
    (h : p.fileList = none) : walk (p :: ps) noarch fst = walk ps noarch fst := by
  simp [walk, h]

theorem walk_qualifying (pkgs : List Package) (noarch fst : Int) :
    walk (qualifying pkgs) noarch fst = walk pkgs noarch fst := by
  induction pkgs generalizing noarch fst with
  | nil => rfl
  | cons p ps ih =>
    cases h : p.fileList with
    | none => rw [qualifying_cons_none p ps h, walk_cons_none p ps noarch fst h, ih]
    | some b =>
      rw [qualifying_cons_some p ps b h]
      simp only [walk, h, ih]

theorem intersperse_cons_flatMap {α : Type} (sep x : α) (xs : List α) :
    List.intersperse sep (x :: xs) = x :: xs.flatMap (fun y => [sep, y]) := by
  induction xs generalizing x with
  | nil => rfl
  | cons y ys ih => simp [List.intersperse, ih]

theorem walk_one (pkgs : List Package) (noarch : Int) :
    walk pkgs noarch 1 = (entryCalls pkgs noarch).flatMap (fun c => [comma, c]) := by
  induction pkgs generalizing noarch with
  | nil => rfl
  | cons p ps ih =>
    cases h : p.fileList with
    | none => simp [walk, entryCalls, h, ih]
    | some b => simp [walk, entryCalls, h, ih, comma, resolvedArch]

theorem walk_first (pkgs : List Package) (noarch fst : Int) (hf : fst ≠ 1) :
    walk pkgs noarch fst = List.intersperse comma (entryCalls pkgs noarch) := by
  induction pkgs generalizing noarch with
  | nil => rfl
  | cons p ps ih =>
    cases h : p.fileList with
    | none => simp [walk, entryCalls, h, ih]
    | some b =>
      simp [walk, entryCalls, h, hf, walk_one, intersperse_cons_flatMap, resolvedArch]

theorem entryCalls_length (pkgs : List Package) (noarch : Int) :
    (entryCalls pkgs noarch).length = (qualifying pkgs).length := by
  induction pkgs generalizing noarch with
  | nil => rfl
  | cons p ps ih =>
    cases h : p.fileList with
    | none => simp [entryCalls, h, ih, qualifying_cons_none p ps h]
    | some b => simp [entryCalls, h, ih, qualifying_cons_some p ps b h]

theorem entryCalls_fmt (pkgs : List Package) (noarch : Int) :
    ∀ c ∈ entryCalls pkgs noarch, ∃ args, c = Call.printf entryFmt args := by
  induction pkgs generalizing noarch with
  | nil => intro c hc; cases hc
  | cons p ps ih =>
    cases h : p.fileList with
    | none => simpa [entryCalls, h] using ih noarch
    | some b =>
      intro c hc
      simp only [entryCalls, h, List.mem_cons] at hc
      rcases hc with hc | hc
      · exact ⟨_, hc⟩
      · exact ih _ c hc

theorem entries_cons_comma (t : List Call) : entries (comma :: t) = entries t := by
  simp [entries, comma, Call.entry?]

theorem entries_cons_entry (n v r a : String) (d : Int) (t : List Call) :
    entries (Call.printf entryFmt [Arg.str n, Arg.str v, Arg.str r, Arg.int d, Arg.str a] :: t) =
      ⟨n, v, r, d, a⟩ :: entries t := by
  simp [entries, Call.entry?]

theorem latched_zero (p : Package) (ps : List Package) :
    latched (p :: ps) 0 = decide (resolvedArch p = "noarch") := by
  simp [latched]

theorem latched_succ (p : Package) (ps : List Package) (k : Nat) :
    latched (p :: ps) (k + 1) = (decide (resolvedArch p = "noarch") || latched ps k) := by
  simp [latched]

theorem entries_walk_cons_some (p : Package) (ps : List Package) (noarch fst : Int)
    (b : StringBuf) (h : p.fileList = some b) :
    entries (walk (p :: ps) noarch fst) =
      ⟨p.header.name, p.header.version, p.header.release,
        if resolvedArch p = "noarch" then 1 else noarch, p.header.arch⟩ ::
      entries (walk ps (if resolvedArch p = "noarch" then 1 else noarch)
        (if fst = 1 then fst else 1)) := by
  by_cases hf : fst = 1
  · simp only [walk, h, hf, if_true, List.singleton_append]
    rw [← comma, entries_cons_comma, entries_cons_entry]
    rfl
  · simp only [walk, h, hf, if_false, List.nil_append]
    rw [entries_cons_entry]
    rfl

theorem entries_walk_get (pkgs : List Package) (noarch fst : Int) (k : Nat) (p : Package)
    (h : (qualifying pkgs)[k]? = some p) :
    (entries (walk pkgs noarch fst))[k]? =
      some ⟨p.header.name, p.header.version, p.header.release,
        if latched (qualifying pkgs) k then 1 else noarch, p.header.arch⟩ := by
  induction pkgs generalizing noarch fst k with
  | nil => simp [qualifying] at h
  | cons q ps ih =>
    cases hq : q.fileList with
    | none =>
      rw [qualifying_cons_none q ps hq] at h ⊢
      rw [walk_cons_none q ps noarch fst hq]
      exact ih noarch fst k h
    | some b =>
      rw [qualifying_cons_some q ps b hq] at h ⊢
      rw [entries_walk_cons_some q ps noarch fst b hq]
      cases k with
      | zero =>
        simp only [List.getElem?_cons_zero, Option.some.injEq] at h
        subst h
        simp [latched_zero]
      | succ k =>
        simp only [List.getElem?_cons_succ] at h
        simp only [List.getElem?_cons_succ, latched_succ]
        rw [ih _ _ k h]
        by_cases ha : resolvedArch q = "noarch" <;> simp [ha]

theorem entries_walk_length (pkgs : List Package) (noarch fst : Int) :
    (entries (walk pkgs noarch fst)).length = (qualifying pkgs).length := by
  induction pkgs generalizing noarch fst with
  | nil => rfl
  | cons q ps ih =>
    cases hq : q.fileList with
    | none => rw [qualifying_cons_none q ps hq, walk_cons_none q ps noarch fst hq, ih]
    | some b =>
      rw [qualifying_cons_some q ps b hq, entries_walk_cons_some q ps noarch fst b hq]
      simp [ih]

theorem entries_walk_fields (pkgs : List Package) (noarch fst : Int) :
    (entries (walk pkgs noarch fst)).map Entry.fields =
      (qualifying pkgs).map Package.fields := by
  induction pkgs generalizing noarch fst with
  | nil => rfl
  | cons q ps ih =>
    cases hq : q.fileList with
    | none => rw [qualifying_cons_none q ps hq, walk_cons_none q ps noarch fst hq, ih]
    | some b =>
      rw [qualifying_cons_some q ps b hq, entries_walk_cons_some q ps noarch fst b hq]
      simp [ih, Entry.fields, Package.fields]

/-! ## Lemmas on the text of the walk -/

theorem stdout_cons (c : Call) (t : List Call) : stdout (c :: t) = stdout [c] ++ stdout t :=
  stdout_append [c] t

theorem stdout_comma : stdout [comma] = "," := by decide

theorem stdout_flatMap (E : List Call) :
    stdout (E.flatMap (fun c => [comma, c])) =
      String.join ((E.map (fun c => stdout [c])).flatMap (fun y => [",", y])) := by
  induction E with
  | nil => rfl
  | cons c E ih =>
    simp only [List.flatMap_cons, List.map_cons, List.cons_append, List.nil_append, join_cons]
    rw [stdout_cons comma, stdout_cons c, stdout_comma, ih]

theorem stdout_intersperse (E : List Call) :
    stdout (List.intersperse comma E) =
      String.join (List.intersperse "," (E.map (fun c => stdout [c]))) := by
  cases E with
  | nil => rfl
  | cons c E =>
    rw [List.map_cons, intersperse_cons_flatMap, intersperse_cons_flatMap, join_cons,
      stdout_cons c, stdout_flatMap]

theorem entryCalls_texts (pkgs : List Package) (b : Bool) :
    (entryCalls pkgs (if b then 1 else 0)).map (fun c => stdout [c]) =
      entryTexts b (qualifying pkgs) := by
  induction pkgs generalizing b with
  | nil => rfl
  | cons q ps ih =>
    cases hq : q.fileList with
    | none =>
      rw [qualifying_cons_none q ps hq]
      simpa [entryCalls, hq] using ih b
    | some buf =>
      rw [qualifying_cons_some q ps buf hq]
      by_cases ha : resolvedArch q = "noarch"
      · have := ih true
        simp only [if_true] at this
        simp [entryCalls, hq, ha, entryTexts, stdout, render_entryFmt, toString_one, this]
      · cases b with
        | true =>
          have := ih true
          simp only [if_true] at this
          simp [entryCalls, hq, ha, entryTexts, stdout, render_entryFmt, toString_one, this]
        | false =>
          have := ih false
          simp only [Bool.false_eq_true, if_false] at this
          simp [entryCalls, hq, ha, entryTexts, stdout, render_entryFmt, toString_zero, this]

theorem stdout_walk_zero (pkgs : List Package) :
    stdout (walk pkgs 0 0) =
      String.join (List.intersperse "," (entryTexts false (qualifying pkgs))) := by
  rw [walk_first pkgs 0 0 (by decide), stdout_intersperse]
  exact congrArg _ (congrArg _ (entryCalls_texts pkgs false))

/-! ## Lemmas on `main` -/

theorem main_ok (rpm : Rpm) (envp : List String) (prog specfile s : String)
    (rest : List String) (spec : Spec)
    (h : rpm.parseSpec rest.head? (some specfile) = (0, some spec)) :
    main rpm (prog :: specfile :: s :: rest) envp =
      ⟨[Call.rpmtsCreate, Call.rpmReadConfigFiles none rest.head?,
          Call.parseSpec (some specfile), Call.rpmtsSetSpec,
          Call.printf headFmt [Arg.str s]] ++
        walk spec.packages 0 0 ++ [Call.printf "]\n" [], Call.printf "\x7d\n" []],
       Stop.exit 0⟩ := by
  have hh : rest.head? = rest[0]? := by cases rest <;> simp
  rw [hh] at h ⊢
  simp [main, argvAt, ptrArg, h]

theorem entries_main_ok (rpm : Rpm) (envp : List String) (prog specfile s : String)
    (rest : List String)
    (spec : Spec) (h : rpm.parseSpec rest.head? (some specfile) = (0, some spec)) :
    entries (main rpm (prog :: specfile :: s :: rest) envp).trace =
      entries (walk spec.packages 0 0) := by
  rw [main_ok rpm envp prog specfile s rest spec h]
  simp [entries, List.filterMap_append, Call.entry?]

theorem stdout_main_ok (rpm : Rpm) (envp : List String) (prog specfile s : String)
    (rest : List String)
    (spec : Spec) (h : rpm.parseSpec rest.head? (some specfile) = (0, some spec)) :
    stdout (main rpm (prog :: specfile :: s :: rest) envp).trace =
      render headFmt [Arg.str s] ++ (stdout (walk spec.packages 0 0) ++ "]\n\x7d\n") := by
  rw [main_ok rpm envp prog specfile s rest spec h]
  have hc : stdout [Call.printf "]\n" [], Call.printf "\x7d\n" []] = "]\n\x7d\n" := by decide
  simp only [stdout_append, hc]
  simp [stdout, String.append_assoc]

theorem render_headFmt_ptr (v : Option String) :
    render headFmt [ptrArg v] =
      "\x7b \"srcrpm\":\"" ++ v.getD "(null)" ++ "\",\n  \"packages\":[\n" := by
  cases v with
  | none => decide
  | some s => exact render_headFmt s

theorem main_short (rpm : Rpm) (envp argv : List String) (h : argv.length ≤ 2)
    (specfile srcrpm : Option String)
    (h1 : argvAt argv envp 1 = Except.ok specfile)
    (h2 : argvAt argv envp 2 = Except.ok srcrpm) :
    main rpm argv envp =
      if (rpm.parseSpec none specfile).1 ≠ 0 then
        ⟨[Call.rpmtsCreate, Call.rpmReadConfigFiles none none, Call.parseSpec specfile,
          Call.printf "fail\n" []], Stop.exit 1⟩
      else
        match (rpm.parseSpec none specfile).2 with
        | none =>
          ⟨[Call.rpmtsCreate, Call.rpmReadConfigFiles none none, Call.parseSpec specfile,
            Call.rpmtsSetSpec], Stop.exit 1⟩
        | some spec =>
          ⟨[Call.rpmtsCreate, Call.rpmReadConfigFiles none none, Call.parseSpec specfile,
              Call.rpmtsSetSpec, Call.printf headFmt [ptrArg srcrpm]] ++
            walk spec.packages 0 0 ++ [Call.printf "]\n" [], Call.printf "\x7d\n" []],
           Stop.exit 0⟩ := by
  have hg : ¬ argv.length > 2 := by omega
  rcases hp : rpm.parseSpec none specfile with ⟨rc, bound⟩
  by_cases hrc : rc = 0 <;> cases bound <;> simp [main, h1, h2, hg, hp, hrc]

theorem latched_iff (q : List Package) (k : Nat) :
    latched q k = true ↔
      ∃ j p, j ≤ k ∧ q[j]? = some p ∧ resolvedArch p = "noarch" := by
  induction q generalizing k with
  | nil => simp [latched]
  | cons a q ih =>
    cases k with
    | zero =>
      rw [latched_zero]
      constructor
      · intro ha
        exact ⟨0, a, Nat.le_refl 0, by simp, by simpa using ha⟩
      · rintro ⟨j, p, hj, hp, hr⟩
        have hj0 : j = 0 := Nat.le_zero.mp hj
        subst hj0
        simp only [List.getElem?_cons_zero, Option.some.injEq] at hp
        subst hp
        simpa using hr
    | succ k =>
      rw [latched_succ, Bool.or_eq_true, ih k]
      constructor
      · rintro (ha | ⟨j, p, hj, hp, hr⟩)
        · exact ⟨0, a, Nat.zero_le _, by simp, by simpa using ha⟩
        · exact ⟨j + 1, p, Nat.succ_le_succ hj, by simpa using hp, hr⟩
      · rintro ⟨j, p, hj, hp, hr⟩
        cases j with
        | zero =>
          simp only [List.getElem?_cons_zero, Option.some.injEq] at hp
          subst hp
          exact Or.inl (by simpa using hr)
        | succ j =>
          exact Or.inr ⟨j, p, Nat.le_of_succ_le_succ hj, by simpa using hp, hr⟩

/-! ## The claims -/

/-- C1: when parsing and binding succeed, the run exits with status 0 and its
standard output is exactly the document of the specification for the second
argument `s` and the parsed package list: the opening text with `s` copied in,
one entry text per qualifying package with name, version, release, noarch flag
and architecture in that order and copied without any escaping (consecutive
entries parted by the one separator comma), and the closing text. -/
theorem C1_output_document (rpm : Rpm) (envp : List String) (prog specfile s : String)
    (rest : List String)
    (spec : Spec) (h : rpm.parseSpec rest.head? (some specfile) = (0, some spec)) :
    (main rpm (prog :: specfile :: s :: rest) envp).stop = Stop.exit 0 ∧
      stdout (main rpm (prog :: specfile :: s :: rest) envp).trace = document s spec.packages := by
  refine ⟨by rw [main_ok rpm envp prog specfile s rest spec h], ?_⟩
  rw [stdout_main_ok rpm envp prog specfile s rest spec h, render_headFmt, stdout_walk_zero,
    document]
  simp only [String.append_assoc]

/-- Witness of C1: a target string and a package name that hold quotes and
backslashes are written out unchanged. -/
theorem C1_output_document_witness :
    (rpmOf [quotePkg, docPkg]).parseSpec ([] : List String).head? (some "demo.spec") =
        (0, some ⟨[quotePkg, docPkg]⟩) ∧
      ((main (rpmOf [quotePkg, docPkg]) ["srpmutil", "demo.spec", "a\"b\\c"] demoEnv).stop = Stop.exit 0 ∧
        stdout (main (rpmOf [quotePkg, docPkg]) ["srpmutil", "demo.spec", "a\"b\\c"] demoEnv).trace =
          document "a\"b\\c" [quotePkg, docPkg]) :=
  ⟨rfl, C1_output_document (rpmOf [quotePkg, docPkg]) demoEnv "srpmutil" "demo.spec" "a\"b\\c" []
    ⟨[quotePkg, docPkg]⟩ rfl⟩

/-- C2, as stated, fails: for a main package and two subpackages of which one
has a `%files` section that lists nothing, three entries are written, not two;
the record with the empty file list is emitted, so the entries are not those of
the records whose file list is "neither empty nor absent". -/
theorem C2_counterexample :
    hasFiles emptyFilesPkg = false ∧
      (entries (main (rpmOf [demoPkg, emptyFilesPkg, libsPkg]) demoArgv demoEnv).trace).length ≠ 2 ∧
      (entries (main (rpmOf [demoPkg, emptyFilesPkg, libsPkg]) demoArgv demoEnv).trace).map Entry.fields ≠
        ([demoPkg, emptyFilesPkg, libsPkg].filter hasFiles).map Package.fields := by
  decide

/-- C2, amended: the entries written correspond one-to-one and in list order to
exactly the records whose file list is present (not `NULL`), whatever the list
holds: the entries carry, in order, the name, version, release and architecture
of those records, each once; records without file list are left out. -/
theorem C2_entries_are_present_file_lists (rpm : Rpm) (envp : List String) (prog specfile s : String)
    (rest : List String) (spec : Spec)
    (h : rpm.parseSpec rest.head? (some specfile) = (0, some spec)) :
    (entries (main rpm (prog :: specfile :: s :: rest) envp).trace).map Entry.fields =
        (spec.packages.filter (fun p => p.fileList.isSome)).map Package.fields ∧
      (entries (main rpm (prog :: specfile :: s :: rest) envp).trace).length =
        (spec.packages.filter (fun p => p.fileList.isSome)).length := by
  rw [entries_main_ok rpm envp prog specfile s rest spec h]
  exact ⟨entries_walk_fields spec.packages 0 0, entries_walk_length spec.packages 0 0⟩

/-- Witness of C2 amended: main package, a stanza without `%files`, a subpackage
with an empty `%files` and one with files. -/
theorem C2_entries_are_present_file_lists_witness :
    (rpmOf [demoPkg, noFilesPkg, emptyFilesPkg, libsPkg]).parseSpec
        ([] : List String).head? (some "demo.spec") =
        (0, some ⟨[demoPkg, noFilesPkg, emptyFilesPkg, libsPkg]⟩) ∧
      ((entries (main (rpmOf [demoPkg, noFilesPkg, emptyFilesPkg, libsPkg])
          ["srpmutil", "demo.spec", "demo-1.0-1.src.rpm"] demoEnv).trace).map Entry.fields =
        ([demoPkg, noFilesPkg, emptyFilesPkg, libsPkg].filter
          (fun p => p.fileList.isSome)).map Package.fields ∧
       (entries (main (rpmOf [demoPkg, noFilesPkg, emptyFilesPkg, libsPkg])
          ["srpmutil", "demo.spec", "demo-1.0-1.src.rpm"] demoEnv).trace).length =
        ([demoPkg, noFilesPkg, emptyFilesPkg, libsPkg].filter
          (fun p => p.fileList.isSome)).length) :=
  ⟨rfl, C2_entries_are_present_file_lists (rpmOf [demoPkg, noFilesPkg, emptyFilesPkg, libsPkg]) demoEnv
    "srpmutil" "demo.spec" "demo-1.0-1.src.rpm" [] ⟨[demoPkg, noFilesPkg, emptyFilesPkg, libsPkg]⟩
    rfl⟩

/-- C3: the `"noarch"` field of the k-th entry written is `"1"` exactly when the
resolved architecture (`%{ARCH}`) of the k-th emitted package or of an earlier
emitted package is `noarch`, and `"0"` exactly when it is not; the flag is
never reset, so every entry after one that carries `"1"` carries `"1"` too. -/
theorem C3_noarch_latch (rpm : Rpm) (envp : List String) (prog specfile s : String)
    (rest : List String)
    (spec : Spec) (h : rpm.parseSpec rest.head? (some specfile) = (0, some spec))
    (k : Nat) (e : Entry)
    (he : (entries (main rpm (prog :: specfile :: s :: rest) envp).trace)[k]? = some e) :
    (e.noarchField = "1" ↔
        ∃ j p, j ≤ k ∧ (qualifying spec.packages)[j]? = some p ∧ resolvedArch p = "noarch") ∧
      (e.noarchField = "0" ↔
        ¬ ∃ j p, j ≤ k ∧ (qualifying spec.packages)[j]? = some p ∧ resolvedArch p = "noarch") ∧
      (∀ m f, k ≤ m → (entries (main rpm (prog :: specfile :: s :: rest) envp).trace)[m]? = some f →
        e.noarchField = "1" → f.noarchField = "1") := by
  rw [entries_main_ok rpm envp prog specfile s rest spec h] at he ⊢
  have key : ∀ (m : Nat) (f : Entry), (entries (walk spec.packages 0 0))[m]? = some f →
      f.noarch = if latched (qualifying spec.packages) m then 1 else 0 := by
    intro m f hf
    have hm : m < (qualifying spec.packages).length := by
      rw [← entries_walk_length spec.packages 0 0]
      exact (List.getElem?_eq_some_iff.mp hf).1
    have hp : (qualifying spec.packages)[m]? = some (qualifying spec.packages)[m] :=
      List.getElem?_eq_getElem hm
    rw [entries_walk_get spec.packages 0 0 m _ hp] at hf
    cases hf
    rfl
  have one : ∀ (m : Nat) (f : Entry), (entries (walk spec.packages 0 0))[m]? = some f →
      (f.noarchField = "1" ↔ latched (qualifying spec.packages) m = true) := by
    intro m f hf
    rw [Entry.noarchField, key m f hf]
    cases latched (qualifying spec.packages) m <;> decide
  have zero : e.noarchField = "0" ↔ ¬ latched (qualifying spec.packages) k = true := by
    rw [Entry.noarchField, key k e he]
    cases latched (qualifying spec.packages) k <;> decide
  refine ⟨?_, ?_, ?_⟩
  · rw [one k e he, latched_iff]
  · rw [zero, latched_iff]
  · intro m f hkm hf h1
    rw [one m f hf, latched_iff]
    rw [one k e he, latched_iff] at h1
    obtain ⟨j, p, hj, hp, hr⟩ := h1
    exact ⟨j, p, Nat.le_trans hj hkm, hp, hr⟩

/-- Witness of C3: package #2 resolves to `noarch`, package #3 to `x86_64`; the
third entry carries the latched flag. -/
theorem C3_noarch_latch_witness :
    ((rpmOf [demoPkg, docPkg, libsPkg]).parseSpec ([] : List String).head? (some "demo.spec") =
        (0, some ⟨[demoPkg, docPkg, libsPkg]⟩) ∧
      (entries (main (rpmOf [demoPkg, docPkg, libsPkg])
          ["srpmutil", "demo.spec", "demo-1.0-1.src.rpm"] demoEnv).trace)[2]? =
        some ⟨"demo-libs", "1.0", "1", 1, "x86_64"⟩) ∧
      ((Entry.mk "demo-libs" "1.0" "1" 1 "x86_64").noarchField = "1" ↔
        ∃ j p, j ≤ 2 ∧ (qualifying [demoPkg, docPkg, libsPkg])[j]? = some p ∧
          resolvedArch p = "noarch") :=
  ⟨⟨rfl, by decide⟩,
    (C3_noarch_latch (rpmOf [demoPkg, docPkg, libsPkg]) demoEnv "srpmutil" "demo.spec"
      "demo-1.0-1.src.rpm" [] ⟨[demoPkg, docPkg, libsPkg]⟩ rfl 2
      ⟨"demo-libs", "1.0", "1", 1, "x86_64"⟩ (by decide)).1⟩

/-- C4: when the parser rejects the spec file (`parseSpec` returns non-zero),
the run makes the single `printf` of the failure line `fail`, stops with exit
status 1, and nothing of the JSON document is written: standard output is
exactly the failure line. -/
theorem C4_parse_failure (rpm : Rpm) (envp : List String) (prog specfile : String)
    (rest : List String)
    (h : (rpm.parseSpec (prog :: specfile :: rest)[3]? (some specfile)).1 ≠ 0) :
    main rpm (prog :: specfile :: rest) envp =
        ⟨[Call.rpmtsCreate, Call.rpmReadConfigFiles none (prog :: specfile :: rest)[3]?,
          Call.parseSpec (some specfile), Call.printf "fail\n" []],
         Stop.exit 1⟩ ∧
      stdout (main rpm (prog :: specfile :: rest) envp).trace = "fail\n" ∧
      entries (main rpm (prog :: specfile :: rest) envp).trace = [] := by
  have hm : main rpm (prog :: specfile :: rest) envp =
      ⟨[Call.rpmtsCreate, Call.rpmReadConfigFiles none (prog :: specfile :: rest)[3]?,
        Call.parseSpec (some specfile), Call.printf "fail\n" []],
       Stop.exit 1⟩ := by
    cases rest with
    | nil => simp [main, argvAt] at h ⊢; exact fun h0 => absurd h0 h
    | cons a rest =>
      cases rest with
      | nil => simp [main, argvAt] at h ⊢; exact fun h0 => absurd h0 h
      | cons b rest => simp [main, argvAt] at h ⊢; exact fun h0 => absurd h0 h
  rw [hm]
  exact ⟨rfl, rfl, rfl⟩

/-- Witness of C4: a rejecting parser on the `demo` arguments. -/
theorem C4_parse_failure_witness :
    (rpmParseFail.parseSpec ("srpmutil" :: "demo.spec" :: ["demo-1.0-1.src.rpm"])[3]?
        (some "demo.spec")).1 ≠ 0 ∧
      (main rpmParseFail ("srpmutil" :: "demo.spec" :: ["demo-1.0-1.src.rpm"]) demoEnv =
        ⟨[Call.rpmtsCreate,
          Call.rpmReadConfigFiles none ("srpmutil" :: "demo.spec" :: ["demo-1.0-1.src.rpm"])[3]?,
          Call.parseSpec (some "demo.spec"), Call.printf "fail\n" []],
         Stop.exit 1⟩ ∧
       stdout (main rpmParseFail ("srpmutil" :: "demo.spec" :: ["demo-1.0-1.src.rpm"]) demoEnv).trace =
        "fail\n" ∧
       entries (main rpmParseFail ("srpmutil" :: "demo.spec" :: ["demo-1.0-1.src.rpm"]) demoEnv).trace =
        []) :=
  ⟨by decide, C4_parse_failure rpmParseFail demoEnv "srpmutil" "demo.spec" ["demo-1.0-1.src.rpm"]
    (by decide)⟩

/-- C5, as stated, fails: when the spec parses and binding gives no spec object
the run stops with status 1 and has printed nothing; no diagnostic is written. -/
theorem C5_counterexample :
    ¬ (stdout (main rpmBindFail demoArgv demoEnv).trace ≠ "" ∧
        (main rpmBindFail demoArgv demoEnv).stop = Stop.exit 1) := by
  decide

/-- C5, amended: when the spec parses and binding gives no spec object, the run
stops with exit status 1 right after `rpmtsSetSpec`, without any `printf`:
standard output stays empty, so neither a diagnostic nor any JSON is written. -/
theorem C5_bind_failure_silent (rpm : Rpm) (envp : List String) (prog specfile : String)
    (rest : List String)
    (h : rpm.parseSpec (prog :: specfile :: rest)[3]? (some specfile) = (0, none)) :
    main rpm (prog :: specfile :: rest) envp =
        ⟨[Call.rpmtsCreate, Call.rpmReadConfigFiles none (prog :: specfile :: rest)[3]?,
          Call.parseSpec (some specfile), Call.rpmtsSetSpec],
         Stop.exit 1⟩ ∧
      stdout (main rpm (prog :: specfile :: rest) envp).trace = "" := by
  have hm : main rpm (prog :: specfile :: rest) envp =
      ⟨[Call.rpmtsCreate, Call.rpmReadConfigFiles none (prog :: specfile :: rest)[3]?,
        Call.parseSpec (some specfile), Call.rpmtsSetSpec],
       Stop.exit 1⟩ := by
    cases rest with
    | nil => simp [main, argvAt] at h ⊢; simp [h]
    | cons a rest =>
      cases rest with
      | nil => simp [main, argvAt] at h ⊢; simp [h]
      | cons b rest => simp [main, argvAt] at h ⊢; simp [h]
  rw [hm]
  exact ⟨rfl, rfl⟩

/-- Witness of C5 amended: a library that parses and binds nothing. -/
theorem C5_bind_failure_silent_witness :
    rpmBindFail.parseSpec ("srpmutil" :: "demo.spec" :: ["demo-1.0-1.src.rpm"])[3]?
        (some "demo.spec") = (0, none) ∧
      (main rpmBindFail ("srpmutil" :: "demo.spec" :: ["demo-1.0-1.src.rpm"]) demoEnv =
        ⟨[Call.rpmtsCreate,
          Call.rpmReadConfigFiles none ("srpmutil" :: "demo.spec" :: ["demo-1.0-1.src.rpm"])[3]?,
          Call.parseSpec (some "demo.spec"), Call.rpmtsSetSpec],
         Stop.exit 1⟩ ∧
       stdout (main rpmBindFail ("srpmutil" :: "demo.spec" :: ["demo-1.0-1.src.rpm"]) demoEnv).trace =
        "") :=
  ⟨rfl, C5_bind_failure_silent rpmBindFail demoEnv "srpmutil" "demo.spec" ["demo-1.0-1.src.rpm"] rfl⟩

/-- C6, as stated, fails: with the spec path as the only argument and a spec
that parses and binds, the run reads the slot `argv[2]` that was not supplied
(the terminating null entry), writes the whole document with `(null)` as the
`"srcrpm"` value and exits with status 0; there is no diagnostic and no
non-zero exit. -/
theorem C6_counterexample :
    (main (rpmOf [demoPkg]) ["srpmutil", "demo.spec"] demoEnv).stop = Stop.exit 0 ∧
      stdout (main (rpmOf [demoPkg]) ["srpmutil", "demo.spec"] demoEnv).trace =
        "\x7b \"srcrpm\":\"(null)\",\n  \"packages\":[\n    \x7b\"name\":\"demo\", \"version\":\"1.0\", \"release\":\"1\", \"noarch\":\"0\", \"arch\":\"x86_64\"\x7d]\n\x7d\n" ∧
      ¬ ∃ n : Int, n ≠ 0 ∧
        (main (rpmOf [demoPkg]) ["srpmutil", "demo.spec"] demoEnv).stop = Stop.exit n := by
  have hs : (main (rpmOf [demoPkg]) ["srpmutil", "demo.spec"] demoEnv).stop = Stop.exit 0 := by
    decide
  refine ⟨hs, by decide, ?_⟩
  rintro ⟨n, hn0, hn⟩
  rw [hs] at hn
  cases hn
  exact hn0 rfl

/-- C6, amended: with a required positional argument missing (`argc ≤ 2`) the
program checks nothing and has no argument error of its own; it runs the path
of a complete invocation on whatever the slots `argv[1]` and `argv[2]` hold.
With only the output target missing (`argc = 2`) the slot `argv[2]` is the
terminating null entry; with the spec path missing too (`argc = 1`) `argv[1]`
is the terminating null entry and `argv[2]` the first slot of the environment
vector.  The configuration is read without target override and `argv[1]` is
handed to the parser: a parse failure ends with the `fail` line and status 1, a
binding failure with status 1 and no output, and when both succeed the whole
document is written and the run exits with status 0, the `"srcrpm"` value
being the string found in the slot `argv[2]`, or `(null)` for a null slot.
(`specfile` and `srcrpm` name what the two slots hold; only an empty argument
vector with an empty environment has no second slot to name.) -/
theorem C6_no_argument_check (rpm : Rpm) (envp : List String) (argv : List String)
    (h : argv.length ≤ 2) (specfile srcrpm : Option String)
    (h1 : argvAt argv envp 1 = Except.ok specfile)
    (h2 : argvAt argv envp 2 = Except.ok srcrpm) :
    (argv.length = 2 → specfile = argv[1]? ∧ srcrpm = none) ∧
      (argv.length = 1 → specfile = none ∧ srcrpm = envp[0]?) ∧
      ((rpm.parseSpec none specfile).1 ≠ 0 →
        main rpm argv envp =
          ⟨[Call.rpmtsCreate, Call.rpmReadConfigFiles none none, Call.parseSpec specfile,
            Call.printf "fail\n" []], Stop.exit 1⟩) ∧
      (rpm.parseSpec none specfile = (0, none) →
        main rpm argv envp =
          ⟨[Call.rpmtsCreate, Call.rpmReadConfigFiles none none, Call.parseSpec specfile,
            Call.rpmtsSetSpec], Stop.exit 1⟩) ∧
      (∀ spec : Spec, rpm.parseSpec none specfile = (0, some spec) →
        (main rpm argv envp).stop = Stop.exit 0 ∧
        stdout (main rpm argv envp).trace =
          document (srcrpm.getD "(null)") spec.packages) := by
  have hm := main_short rpm envp argv h specfile srcrpm h1 h2
  refine ⟨?_, ?_, ?_, ?_, ?_⟩
  · intro h2l
    match argv, h2l, h1, h2 with
    | [a, b], _, h1, h2 =>
      simp [argvAt] at h1 h2
      exact ⟨by simp [h1], h2.symm⟩
  · intro h1l
    match argv, h1l, h1, h2 with
    | [a], _, h1, h2 =>
      simp [argvAt] at h1 h2
      exact ⟨h1.symm, h2.symm⟩
  · intro hrc
    rw [hm, if_pos hrc]
  · intro hp
    rw [hm, hp]
    simp
  · intro spec hp
    rw [hm, hp]
    simp only [ne_eq, not_true_eq_false, if_false]
    have hc : stdout [Call.printf "]\n" [], Call.printf "\x7d\n" []] = "]\n\x7d\n" := by decide
    refine ⟨trivial, ?_⟩
    simp only [stdout_append, hc]
    simp only [stdout, render_headFmt_ptr, stdout_walk_zero, document, String.append_assoc,
      String.empty_append, String.append_empty]

/-- Witness of C6 amended: the spec path is the only argument. -/
theorem C6_no_argument_check_witness :
    (["srpmutil", "demo.spec"].length ≤ 2 ∧
        argvAt ["srpmutil", "demo.spec"] demoEnv 1 = Except.ok (some "demo.spec") ∧
        argvAt ["srpmutil", "demo.spec"] demoEnv 2 = Except.ok none ∧
        (rpmOf [demoPkg]).parseSpec none (some "demo.spec") = (0, some ⟨[demoPkg]⟩)) ∧
      ((main (rpmOf [demoPkg]) ["srpmutil", "demo.spec"] demoEnv).stop = Stop.exit 0 ∧
        stdout (main (rpmOf [demoPkg]) ["srpmutil", "demo.spec"] demoEnv).trace =
          document ((none : Option String).getD "(null)") [demoPkg]) :=
  ⟨⟨by decide, by simp [argvAt], by simp [argvAt], rfl⟩,
    (C6_no_argument_check (rpmOf [demoPkg]) demoEnv ["srpmutil", "demo.spec"] (by decide)
      (some "demo.spec") none (by simp [argvAt]) (by simp [argvAt])).2.2.2.2 ⟨[demoPkg]⟩ rfl⟩

theorem count_comma_flatMap (E : List Call) (hE : ∀ c ∈ E, c ≠ comma) :
    (E.flatMap (fun c => [comma, c])).count comma = E.length := by
  induction E with
  | nil => rfl
  | cons c E ih =>
    have hc : c ≠ comma := hE c (List.mem_cons_self c E)
    have hE' : ∀ d ∈ E, d ≠ comma := fun d hd => hE d (List.mem_cons_of_mem c hd)
    simp only [List.flatMap_cons, List.cons_append, List.nil_append, List.length_cons]
    rw [List.count_cons_self, List.count_cons_of_ne hc.symm, ih hE']

theorem count_comma_intersperse (E : List Call) (hE : ∀ c ∈ E, c ≠ comma) :
    (List.intersperse comma E).count comma = E.length - 1 := by
  cases E with
  | nil => rfl
  | cons c E =>
    have hc : c ≠ comma := hE c (List.mem_cons_self c E)
    have hE' : ∀ d ∈ E, d ≠ comma := fun d hd => hE d (List.mem_cons_of_mem c hd)
    rw [intersperse_cons_flatMap, List.count_cons_of_ne hc.symm, count_comma_flatMap E hE']
    simp

theorem entryCalls_ne_comma (pkgs : List Package) (noarch : Int) :
    ∀ c ∈ entryCalls pkgs noarch, c ≠ comma := by
  intro c hc
  obtain ⟨args, rfl⟩ := entryCalls_fmt pkgs noarch c hc
  intro h
  have hf : entryFmt = "," := by
    simp only [comma, Call.printf.injEq] at h
    exact h.1
  exact absurd hf (by decide)

/-- C7: in a successful run with `n` qualifying packages the separator `printf`
is called `n - 1` times (none for `n = 0`); the calls after the opening one are
the `n` entry calls with one separator between each two neighbours, none before
the first and none after the last, followed by the two closing calls; and with
no qualifying package the opening text is followed at once by the closing text. -/
theorem C7_separators (rpm : Rpm) (envp : List String) (prog specfile s : String)
    (rest : List String)
    (spec : Spec) (h : rpm.parseSpec rest.head? (some specfile) = (0, some spec)) :
    (main rpm (prog :: specfile :: s :: rest) envp).trace.count comma =
        (qualifying spec.packages).length - 1 ∧
      (∃ E : List Call,
        E.length = (qualifying spec.packages).length ∧
        (∀ c ∈ E, ∃ args, c = Call.printf entryFmt args) ∧
        (main rpm (prog :: specfile :: s :: rest) envp).trace =
          [Call.rpmtsCreate, Call.rpmReadConfigFiles none rest.head?,
            Call.parseSpec (some specfile), Call.rpmtsSetSpec,
            Call.printf headFmt [Arg.str s]] ++
          List.intersperse comma E ++ [Call.printf "]\n" [], Call.printf "\x7d\n" []]) ∧
      ((qualifying spec.packages).length = 0 →
        stdout (main rpm (prog :: specfile :: s :: rest) envp).trace =
          "\x7b \"srcrpm\":\"" ++ s ++ "\",\n  \"packages\":[\n" ++ "]\n\x7d\n") := by
  have hw : walk spec.packages 0 0 = List.intersperse comma (entryCalls spec.packages 0) :=
    walk_first spec.packages 0 0 (by decide)
  refine ⟨?_, ⟨entryCalls spec.packages 0, entryCalls_length spec.packages 0,
    entryCalls_fmt spec.packages 0, ?_⟩, ?_⟩
  · rw [main_ok rpm envp prog specfile s rest spec h, hw]
    simp only [List.count_append]
    rw [count_comma_intersperse _ (entryCalls_ne_comma spec.packages 0),
      entryCalls_length]
    have h1 : List.count comma [Call.rpmtsCreate, Call.rpmReadConfigFiles none rest.head?,
        Call.parseSpec (some specfile), Call.rpmtsSetSpec, Call.printf headFmt [Arg.str s]] = 0 := by
      simp [comma]
    have h2 : List.count comma [Call.printf "]\n" [], Call.printf "\x7d\n" []] = 0 := by decide
    rw [h1, h2]
    simp
  · rw [main_ok rpm envp prog specfile s rest spec h, hw]
  · intro h0
    have hq : qualifying spec.packages = [] := List.length_eq_zero.mp h0
    rw [stdout_main_ok rpm envp prog specfile s rest spec h, render_headFmt, stdout_walk_zero, hq]
    simp [entryTexts, String.join, String.append_assoc]

/-- Witness of C7: three qualifying packages and two separators. -/
theorem C7_separators_witness :
    (rpmOf [demoPkg, noFilesPkg, docPkg, libsPkg]).parseSpec ([] : List String).head?
        (some "demo.spec") = (0, some ⟨[demoPkg, noFilesPkg, docPkg, libsPkg]⟩) ∧
      (main (rpmOf [demoPkg, noFilesPkg, docPkg, libsPkg])
          ["srpmutil", "demo.spec", "demo-1.0-1.src.rpm"] demoEnv).trace.count comma =
        (qualifying [demoPkg, noFilesPkg, docPkg, libsPkg]).length - 1 :=
  ⟨rfl, (C7_separators (rpmOf [demoPkg, noFilesPkg, docPkg, libsPkg]) demoEnv "srpmutil" "demo.spec"
    "demo-1.0-1.src.rpm" [] ⟨[demoPkg, noFilesPkg, docPkg, libsPkg]⟩ rfl).1⟩

/-- C8, as stated, fails: the output of the `demo` run is not the one-line text
of the specification; the program breaks and indents the lines. -/
theorem C8_counterexample :
    stdout (main (rpmOf [demoPkg]) demoArgv demoEnv).trace ≠ demoLine := by
  decide

/-- C8, amended: for a single package record with name `demo`, version `1.0`,
release `1`, a non-empty file list and raw and resolved architecture `x86_64`,
and output target `demo-1.0-1.src.rpm`, the run exits with status 0, the array
holds exactly one entry, and the output is the text of the specification with
the line breaks and indentation the program writes: it ends each of the three
lines with a line feed and indents the second by two and the entry by four
blanks; with every run of blanks and line feeds collapsed to one blank it is the
one-line text of the specification. -/
theorem C8_demo_output (rpm : Rpm) (envp : List String) (prog specfile : String)
    (rest : List String)
    (p : Package) (hn : p.header.name = "demo") (hv : p.header.version = "1.0")
    (hr : p.header.release = "1") (ha : p.header.arch = "x86_64")
    (hres : resolvedArch p = "x86_64")
    (hf : ∃ buf : StringBuf, buf ≠ "" ∧ p.fileList = some buf)
    (h : rpm.parseSpec rest.head? (some specfile) = (0, some ⟨[p]⟩)) :
    (main rpm (prog :: specfile :: "demo-1.0-1.src.rpm" :: rest) envp).stop = Stop.exit 0 ∧
      stdout (main rpm (prog :: specfile :: "demo-1.0-1.src.rpm" :: rest) envp).trace = demoText ∧
      (entries (main rpm (prog :: specfile :: "demo-1.0-1.src.rpm" :: rest) envp).trace).length = 1 ∧
      squeeze (stdout (main rpm (prog :: specfile :: "demo-1.0-1.src.rpm" :: rest) envp).trace).data =
        demoLine.data := by
  obtain ⟨buf, _, hbuf⟩ := hf
  have hq : qualifying [p] = [p] := qualifying_cons_some p [] buf hbuf
  have hout : stdout (main rpm (prog :: specfile :: "demo-1.0-1.src.rpm" :: rest) envp).trace =
      demoText := by
    rw [stdout_main_ok rpm envp prog specfile _ rest _ h, render_headFmt, stdout_walk_zero, hq]
    simp only [entryTexts, hn, hv, hr, ha, hres]
    decide
  refine ⟨by rw [main_ok rpm envp prog specfile _ rest _ h], hout, ?_, ?_⟩
  · rw [entries_main_ok rpm envp prog specfile _ rest _ h, entries_walk_length, hq]
    rfl
  · rw [hout]
    decide

/-- Witness of C8 amended: the `demo` package and arguments. -/
theorem C8_demo_output_witness :
    (demoPkg.header.name = "demo" ∧ demoPkg.header.version = "1.0" ∧
        demoPkg.header.release = "1" ∧ demoPkg.header.arch = "x86_64" ∧
        resolvedArch demoPkg = "x86_64" ∧
        (∃ buf : StringBuf, buf ≠ "" ∧ demoPkg.fileList = some buf) ∧
        (rpmOf [demoPkg]).parseSpec ([] : List String).head? (some "demo.spec") =
          (0, some ⟨[demoPkg]⟩)) ∧
      stdout (main (rpmOf [demoPkg]) ["srpmutil", "demo.spec", "demo-1.0-1.src.rpm"] demoEnv).trace =
        demoText :=
  ⟨⟨rfl, rfl, rfl, rfl, rfl, ⟨"/usr/bin/demo\n", by decide, rfl⟩, rfl⟩,
    (C8_demo_output (rpmOf [demoPkg]) demoEnv "srpmutil" "demo.spec" [] demoPkg rfl rfl rfl rfl rfl
      ⟨"/usr/bin/demo\n", by decide, rfl⟩ rfl).2.1⟩

theorem walk_printf (pkgs : List Package) (noarch fst : Int) :
    ∀ c ∈ walk pkgs noarch fst, ∃ fmt args, c = Call.printf fmt args := by
  induction pkgs generalizing noarch fst with
  | nil => intro c hc; cases hc
  | cons p ps ih =>
    cases h : p.fileList with
    | none => rw [walk_cons_none p ps noarch fst h]; exact ih noarch fst
    | some b =>
      intro c hc
      simp only [walk, h, List.mem_append, List.mem_cons] at hc
      rcases hc with hc | hc | hc
      · by_cases hf : fst = 1
        · simp only [hf, if_true, List.mem_singleton] at hc
          exact ⟨_, _, hc⟩
        · simp [hf] at hc
      · exact ⟨_, _, hc⟩
      · exact ih _ _ c hc

/-- C9: with the two required arguments present, the target architecture given
to `rpmReadConfigFiles` is the third positional argument when there is one and
the null pointer (no override) when there is none; the guarded read `argv[3]`
stays within the vector and its terminating entry, for every argument vector the
guard lets through; the run never ends in undefined behaviour; and the
configuration is read once, before `parseSpec`: the trace opens with
`rpmtsCreate`, `rpmReadConfigFiles`, `parseSpec` and goes on with
`rpmtsSetSpec` and `printf` calls only. -/
theorem C9_target_arch (rpm : Rpm) (envp : List String) (prog specfile s : String) (rest : List String) :
    argvAt (prog :: specfile :: s :: rest) envp 3 = Except.ok rest.head? ∧
      (∀ argv : List String,
        (if argv.length > 2 then argvAt argv envp 3 else Except.ok none) = Except.ok argv[3]?) ∧
      (∃ tail : List Call,
        (main rpm (prog :: specfile :: s :: rest) envp).trace =
          Call.rpmtsCreate :: Call.rpmReadConfigFiles none rest.head? ::
            Call.parseSpec (some specfile) :: tail ∧
        ∀ c ∈ tail, c = Call.rpmtsSetSpec ∨ ∃ fmt args, c = Call.printf fmt args) ∧
      (∀ f, (main rpm (prog :: specfile :: s :: rest) envp).stop ≠ Stop.fault f) := by
  have hh : rest.head? = rest[0]? := by cases rest <;> simp
  refine ⟨by simp [argvAt, hh], ?_, ?_⟩
  · intro argv
    by_cases hl : argv.length > 2
    · have h3 : 3 ≤ argv.length := hl
      simp [hl, argvAt, h3]
    · have h3 : argv.length ≤ 3 := by omega
      simp [hl, List.getElem?_eq_none h3]
  · rcases hp : rpm.parseSpec rest.head? (some specfile) with ⟨rc, bound⟩
    by_cases hrc : rc = 0
    · cases bound with
      | none =>
        rw [hh] at hp
        have hm : main rpm (prog :: specfile :: s :: rest) envp =
            ⟨[Call.rpmtsCreate, Call.rpmReadConfigFiles none rest.head?,
              Call.parseSpec (some specfile), Call.rpmtsSetSpec], Stop.exit 1⟩ := by
          rw [hh]
          simp [main, argvAt, hp, hrc]
        rw [hm]
        exact ⟨⟨[Call.rpmtsSetSpec], rfl, by simp⟩, by intro f hf; cases hf⟩
      | some spec =>
        subst hrc
        rw [main_ok rpm envp prog specfile s rest spec hp]
        refine ⟨⟨Call.rpmtsSetSpec :: Call.printf headFmt [Arg.str s] ::
          (walk spec.packages 0 0 ++ [Call.printf "]\n" [], Call.printf "\x7d\n" []]),
          by simp, ?_⟩, by intro f hf; cases hf⟩
        intro c hc
        simp only [List.mem_cons, List.mem_append, List.mem_singleton] at hc
        rcases hc with hc | hc | hc | hc
        · exact Or.inl hc
        · exact Or.inr ⟨_, _, hc⟩
        · exact Or.inr (walk_printf _ _ _ c hc)
        · rcases hc with hc | hc | hc
          · exact Or.inr ⟨_, _, hc⟩
          · exact Or.inr ⟨_, _, hc⟩
          · cases hc
    · rw [hh] at hp
      have hm : main rpm (prog :: specfile :: s :: rest) envp =
          ⟨[Call.rpmtsCreate, Call.rpmReadConfigFiles none rest.head?,
            Call.parseSpec (some specfile), Call.printf "fail\n" []], Stop.exit 1⟩ := by
        rw [hh]
        simp [main, argvAt, hp, hrc]
      rw [hm]
      exact ⟨⟨[Call.printf "fail\n" []], rfl, by simp⟩, by intro f hf; cases hf⟩

/-- Witness of C9: a third positional argument is the target architecture. -/
theorem C9_target_arch_witness :
    argvAt ["srpmutil", "demo.spec", "demo-1.0-1.src.rpm", "i686"] demoEnv 3 =
      Except.ok (["i686"] : List String).head? :=
  (C9_target_arch (rpmOf [demoPkg]) demoEnv "srpmutil" "demo.spec" "demo-1.0-1.src.rpm" ["i686"]).1

/-- C10: skipped records are invisible.  Taking every record without file list
out of the package lists the library hands over changes nothing of a run, for
every library behaviour and argument vector; the walk itself, started in any
state of the noarch latch and the first-entry flag, makes the same calls on a
list and on the list without its skipped records, and a skipped record at the
head of the list leaves both locals as they were, whatever its architecture. -/
theorem C10_skipped_invisible (rpm : Rpm) (envp : List String) (argv : List String) :
    main rpm.withoutSkipped argv envp = main rpm argv envp ∧
      (∀ (pkgs : List Package) (noarch fst : Int),
        walk (pkgs.filter (fun p => p.fileList.isSome)) noarch fst = walk pkgs noarch fst) ∧
      (∀ (hdr : Header) (ps : List Package) (noarch fst : Int),
        walk (⟨hdr, none⟩ :: ps) noarch fst = walk ps noarch fst) := by
  refine ⟨?_, walk_qualifying, fun hdr ps noarch fst => walk_cons_none _ ps noarch fst rfl⟩
  simp only [main]
  generalize argvAt argv envp 1 = r1
  generalize (if argv.length > 2 then argvAt argv envp 3 else Except.ok none) = r3
  generalize argvAt argv envp 2 = r2
  cases r1 with
  | error f => rfl
  | ok specfile =>
    cases r3 with
    | error f => rfl
    | ok targetarch =>
      rcases hp : rpm.parseSpec targetarch specfile with ⟨rc, bound⟩
      by_cases hrc : rc = 0
      · cases bound with
        | none => simp [Rpm.withoutSkipped, hp, hrc]
        | some spec =>
          cases r2 with
          | error f => simp [Rpm.withoutSkipped, hp, hrc]
          | ok srcrpm => simp [Rpm.withoutSkipped, hp, hrc, walk_qualifying]
      · simp [Rpm.withoutSkipped, hp, hrc]

/-- Witness of C10: a skipped `noarch` stanza ahead of the `demo` package. -/
theorem C10_skipped_invisible_witness :
    main (rpmOf [noFilesPkg, demoPkg]).withoutSkipped demoArgv demoEnv =
      main (rpmOf [noFilesPkg, demoPkg]) demoArgv demoEnv :=
  (C10_skipped_invisible (rpmOf [noFilesPkg, demoPkg]) demoEnv demoArgv).1

end Srpmutil
